import Mathlib

/-!
Verification of the sentiment-analysis pipeline in `src/sentiment_analyzer.py`
(`SentimentAnalyzer`: `analyze_single_text`, `analyze_batch`,
`analyze_batch_gemini`, `validate_result`, `fallback_analysis`,
`get_summary_stats`).

Modelling conventions:
* Python's dynamically typed values (the values a parsed JSON record can
  hold) are modelled by the inductive type `PyVal`.
* Python floats are modelled as exact rationals `ℚ`; `round(x, n)` is
  modelled as exact round-half-to-even on `ℚ` (`rhe`, `pyRound`).
* Fallible Python operations (`.lower()` on a non-string, `float(x)`,
  `int(x)` on non-coercible input, iterating a non-iterable) are modelled
  with `Except String`; a raised exception is an `Except.error`.
* The external Gemini capability (`self.model.generate_content`) together
  with the regex extraction and `json.loads` that immediately follow it is
  modelled as an oracle outcome passed in as an argument
  (`BatchCallOutcome` / `SingleCallOutcome`): the call can raise (`exn`,
  which also covers a `json.loads` failure inside the same `try`), the
  regex can find no JSON in the response (`noMatch`), or a parsed record
  (array of records) is obtained (`parsed`).
* `analyzed_at` (`datetime.now().isoformat()`) is a wall-clock timestamp
  and is omitted from the model; no claim concerns it.
* `str.lower` / `Char.toLower` agree on the ASCII texts involved here.
-/

/-- A dynamically typed Python/JSON value. -/
inductive PyVal where
  | pyStr (s : String)
  | pyInt (n : Int)
  | pyFloat (q : ℚ)
  | pyBool (b : Bool)
  | pyNone
  | pyList (xs : List PyVal)

mutual

/-- Decidable (syntactic) equality for `PyVal`. -/
def PyVal.decEq : (a b : PyVal) → Decidable (a = b)
  | .pyStr a, .pyStr b =>
    if h : a = b then isTrue (by rw [h]) else isFalse (by intro hh; injection hh; contradiction)
  | .pyInt a, .pyInt b =>
    if h : a = b then isTrue (by rw [h]) else isFalse (by intro hh; injection hh; contradiction)
  | .pyFloat a, .pyFloat b =>
    if h : a = b then isTrue (by rw [h]) else isFalse (by intro hh; injection hh; contradiction)
  | .pyBool a, .pyBool b =>
    if h : a = b then isTrue (by rw [h]) else isFalse (by intro hh; injection hh; contradiction)
  | .pyNone, .pyNone => isTrue rfl
  | .pyList as, .pyList bs =>
    match PyVal.decEqList as bs with
    | isTrue h => isTrue (by rw [h])
    | isFalse h => isFalse (by intro hh; injection hh; contradiction)
  | .pyStr _, .pyInt _ => isFalse (by intro h; exact PyVal.noConfusion h)
  | .pyStr _, .pyFloat _ => isFalse (by intro h; exact PyVal.noConfusion h)
  | .pyStr _, .pyBool _ => isFalse (by intro h; exact PyVal.noConfusion h)
  | .pyStr _, .pyNone => isFalse (by intro h; exact PyVal.noConfusion h)
  | .pyStr _, .pyList _ => isFalse (by intro h; exact PyVal.noConfusion h)
  | .pyInt _, .pyStr _ => isFalse (by intro h; exact PyVal.noConfusion h)
  | .pyInt _, .pyFloat _ => isFalse (by intro h; exact PyVal.noConfusion h)
  | .pyInt _, .pyBool _ => isFalse (by intro h; exact PyVal.noConfusion h)
  | .pyInt _, .pyNone => isFalse (by intro h; exact PyVal.noConfusion h)
  | .pyInt _, .pyList _ => isFalse (by intro h; exact PyVal.noConfusion h)
  | .pyFloat _, .pyStr _ => isFalse (by intro h; exact PyVal.noConfusion h)
  | .pyFloat _, .pyInt _ => isFalse (by intro h; exact PyVal.noConfusion h)
  | .pyFloat _, .pyBool _ => isFalse (by intro h; exact PyVal.noConfusion h)
  | .pyFloat _, .pyNone => isFalse (by intro h; exact PyVal.noConfusion h)
  | .pyFloat _, .pyList _ => isFalse (by intro h; exact PyVal.noConfusion h)
  | .pyBool _, .pyStr _ => isFalse (by intro h; exact PyVal.noConfusion h)
  | .pyBool _, .pyInt _ => isFalse (by intro h; exact PyVal.noConfusion h)
  | .pyBool _, .pyFloat _ => isFalse (by intro h; exact PyVal.noConfusion h)
  | .pyBool _, .pyNone => isFalse (by intro h; exact PyVal.noConfusion h)
  | .pyBool _, .pyList _ => isFalse (by intro h; exact PyVal.noConfusion h)
  | .pyNone, .pyStr _ => isFalse (by intro h; exact PyVal.noConfusion h)
  | .pyNone, .pyInt _ => isFalse (by intro h; exact PyVal.noConfusion h)
  | .pyNone, .pyFloat _ => isFalse (by intro h; exact PyVal.noConfusion h)
  | .pyNone, .pyBool _ => isFalse (by intro h; exact PyVal.noConfusion h)
  | .pyNone, .pyList _ => isFalse (by intro h; exact PyVal.noConfusion h)
  | .pyList _, .pyStr _ => isFalse (by intro h; exact PyVal.noConfusion h)
  | .pyList _, .pyInt _ => isFalse (by intro h; exact PyVal.noConfusion h)
  | .pyList _, .pyFloat _ => isFalse (by intro h; exact PyVal.noConfusion h)
  | .pyList _, .pyBool _ => isFalse (by intro h; exact PyVal.noConfusion h)
  | .pyList _, .pyNone => isFalse (by intro h; exact PyVal.noConfusion h)
termination_by structural a => a

/-- Decidable equality for lists of `PyVal`. -/
def PyVal.decEqList : (as bs : List PyVal) → Decidable (as = bs)
  | [], [] => isTrue rfl
  | [], _ :: _ => isFalse (by intro h; exact List.noConfusion h)
  | _ :: _, [] => isFalse (by intro h; exact List.noConfusion h)
  | a :: as, b :: bs =>
    match PyVal.decEq a b with
    | isFalse h1 => isFalse (by intro hh; injection hh; contradiction)
    | isTrue h1 =>
      match PyVal.decEqList as bs with
      | isTrue h2 => isTrue (by rw [h1, h2])
      | isFalse h2 => isFalse (by intro hh; injection hh; contradiction)
termination_by structural as => as

end

instance : DecidableEq PyVal := PyVal.decEq

deriving instance DecidableEq for Except

mutual

/-- Normal form used to model Python `==` on these values: `True == 1 == 1.0`
holds in Python, so booleans and integers are normalised to rationals;
lists compare elementwise. -/
def pyNormalize : PyVal → PyVal
  | .pyStr s => .pyStr s
  | .pyInt n => .pyFloat (n : ℚ)
  | .pyFloat q => .pyFloat q
  | .pyBool b => .pyFloat (if b then 1 else 0)
  | .pyNone => .pyNone
  | .pyList xs => .pyList (pyNormalizeList xs)
termination_by structural a => a

/-- Elementwise normalisation of a list of values. -/
def pyNormalizeList : List PyVal → List PyVal
  | [] => []
  | x :: xs => pyNormalize x :: pyNormalizeList xs
termination_by structural as => as

end

/-- Model of Python `==` on `PyVal`s (numeric cross-type equality included). -/
def pyEq (a b : PyVal) : Bool := decide (pyNormalize a = pyNormalize b)

/-- A raw parsed JSON record: a Python dict (unique keys) as produced by
`json.loads`, modelled as an association list. -/
abbrev RawRecord := List (String × PyVal)

/-- Model of `dict.get(k)` (returning `None` as `none` when absent). -/
def rGet (r : RawRecord) (k : String) : Option PyVal :=
  match r with
  | [] => none
  | (k0, v) :: rest => if k0 == k then some v else rGet rest k

/-- ASCII-faithful model of Python `str.lower()` on a string value. -/
def lowerStr (s : String) : String := String.mk (s.data.map Char.toLower)

/-- Model of `x.lower()` on an arbitrary value: only strings have `.lower`,
anything else raises `AttributeError`. -/
def pyLower : PyVal → Except String String
  | .pyStr s => .ok (lowerStr s)
  | _ => .error "AttributeError: object has no attribute lower"

/-- Fold decimal digits into a natural number. -/
def digitsToNat (cs : List Char) : Nat :=
  cs.foldl (fun a c => a * 10 + (c.toNat - 48)) 0

/-- Model of parsing a decimal string for Python `float(s)`: optional sign,
digits, optional fractional part (`"1"`, `"-2.5"`, `"1."`, `".5"`).
Exponent notation, `inf`/`nan` and surrounding whitespace, which Python also
accepts, are not modelled; no claim involves them. -/
def parseDecimal (s : String) : Option ℚ :=
  let cs := s.data
  let signed : Bool × List Char :=
    match cs with
    | '-' :: rest => (true, rest)
    | '+' :: rest => (false, rest)
    | _ => (false, cs)
  let neg := signed.1
  let body := signed.2
  let intPart := body.takeWhile (fun c => c.isDigit)
  let rest := body.dropWhile (fun c => c.isDigit)
  let mag : Option ℚ :=
    match rest with
    | [] => if intPart.isEmpty then none else some (digitsToNat intPart : ℚ)
    | '.' :: frac =>
      if frac.all (fun c => c.isDigit) && !(intPart.isEmpty && frac.isEmpty) then
        some ((digitsToNat intPart : ℚ) + (digitsToNat frac : ℚ) / ((10 : ℚ) ^ frac.length))
      else none
    | _ => none
  mag.map (fun q => if neg then -q else q)

/-- Model of parsing an integer string for Python `int(s)`: optional sign and
digits only (Python `int("5.5")` raises). -/
def parseIntStr (s : String) : Option Int :=
  let cs := s.data
  let signed : Bool × List Char :=
    match cs with
    | '-' :: rest => (true, rest)
    | '+' :: rest => (false, rest)
    | _ => (false, cs)
  if signed.2.isEmpty || !(signed.2.all (fun c => c.isDigit)) then none
  else some (if signed.1 then -(digitsToNat signed.2 : Int) else (digitsToNat signed.2 : Int))

/-- Model of the Python builtin `float(x)`. -/
def pyToFloat : PyVal → Except String ℚ
  | .pyFloat q => .ok q
  | .pyInt n => .ok (n : ℚ)
  | .pyBool b => .ok (if b then 1 else 0)
  | .pyStr s =>
    match parseDecimal s with
    | some q => .ok q
    | none => .error "ValueError: could not convert string to float"
  | .pyNone => .error "TypeError: float() argument must not be None"
  | .pyList _ => .error "TypeError: float() argument must not be a list"

/-- Truncation toward zero, as Python `int(f)` does on a float. -/
def ratTrunc (q : ℚ) : Int := if q < 0 then ⌈q⌉ else ⌊q⌋

/-- Model of the Python builtin `int(x)`. -/
def pyToInt : PyVal → Except String Int
  | .pyInt n => .ok n
  | .pyBool b => .ok (if b then 1 else 0)
  | .pyFloat q => .ok (ratTrunc q)
  | .pyStr s =>
    match parseIntStr s with
    | some n => .ok n
    | none => .error "ValueError: invalid literal for int()"
  | .pyNone => .error "TypeError: int() argument must not be None"
  | .pyList _ => .error "TypeError: int() argument must not be a list"

/-- Model of `text[:100] + "..." if len(text) > 100 else text` (Python `len` counts
code points, as `String.length` does). -/
def pyTruncate (s : String) : String :=
  if 100 < s.length then String.mk (s.data.take 100) ++ "..." else s

/-- The dict returned by `validate_result` / `fallback_analysis`: the
pipeline's per-text result. `emotions` and `key_phrases` are kept as raw
`PyVal`s because `validate_result` stores whatever the parsed record held
under those keys, without any type check. The `analyzed_at` timestamp is
omitted (see module docstring). -/
structure ResultDict where
  sentiment : String
  confidence : ℚ
  emotions : PyVal
  key_phrases : PyVal
  intensity : Int
  original_text : String
deriving DecidableEq

/-- Model of `SentimentAnalyzer.validate_result(result, original_text)` (lines
132-155). Field coercions happen in the dict-literal order of the source:
`sentiment` (`.get(...,"neutral").lower()`), `confidence` (`float(...)`),
`emotions` / `key_phrases` (kept as-is), `intensity` (`int(...)`),
`original_text` (truncated). An exception in any coercion aborts the whole
call (`Except.error`); afterwards the three range fixups are applied. -/
def validate_result (result : RawRecord) (original_text : String) :
    Except String ResultDict :=
  match pyLower ((rGet result "sentiment").getD (.pyStr "neutral")) with
  | .error e => .error e
  | .ok sentiment0 =>
    match pyToFloat ((rGet result "confidence").getD (.pyFloat (1/2))) with
    | .error e => .error e
    | .ok confidence0 =>
      match pyToInt ((rGet result "intensity").getD (.pyInt 5)) with
      | .error e => .error e
      | .ok intensity0 =>
        let emotions := (rGet result "emotions").getD (.pyList [.pyStr "neutral"])
        let key_phrases := (rGet result "key_phrases").getD (.pyList [])
        let sentiment :=
          if ["positive", "negative", "neutral"].contains sentiment0 then sentiment0
          else "neutral"
        let confidence := max 0 (min 1 confidence0)
        let intensity := max 1 (min 10 intensity0)
        .ok { sentiment := sentiment, confidence := confidence, emotions := emotions,
              key_phrases := key_phrases, intensity := intensity,
              original_text := pyTruncate original_text }

/-- The fixed positive-word list of `fallback_analysis` (line 159). -/
def positive_words : List String :=
  ["good", "great", "excellent", "amazing", "love", "best", "wonderful", "fantastic"]

/-- The fixed negative-word list of `fallback_analysis` (line 160). -/
def negative_words : List String :=
  ["bad", "terrible", "awful", "hate", "worst", "horrible", "disappointing"]

/-- Python's `word in text` substring test. -/
def containsSub (needle hay : String) : Bool := decide (needle.data <:+: hay.data)

/-- Model of `SentimentAnalyzer.fallback_analysis(text)` (lines 157-184):
`sum(1 for word in words if word in text_lower)` counts, per fixed list, the
listed words occurring as substrings of the lower-cased text (at most 1 per
listed word). -/
def fallback_analysis (text : String) : ResultDict :=
  let text_lower := lowerStr text
  let positive_count := positive_words.countP (fun word => containsSub word text_lower)
  let negative_count := negative_words.countP (fun word => containsSub word text_lower)
  let sc : String × ℚ :=
    if negative_count < positive_count then ("positive", 3/5)
    else if positive_count < negative_count then ("negative", 3/5)
    else ("neutral", 1/2)
  { sentiment := sc.1, confidence := sc.2,
    emotions := .pyList [.pyStr "neutral"], key_phrases := .pyList [],
    intensity := 5, original_text := pyTruncate text }

/-- Outcome of one single-item capability call in `analyze_single_text`
(lines 19-61): the `try` body can raise (`exn`, covering a transport error
or a `json.loads` failure), the regex search for an embedded JSON object can
find nothing (`noMatch`), or a parsed record is obtained (`parsed`). -/
inductive SingleCallOutcome where
  | exn
  | noMatch
  | parsed (record : RawRecord)

/-- Outcome of one chunk capability call in `analyze_batch_gemini`
(lines 76-130), analogous to `SingleCallOutcome` with an array result. -/
inductive BatchCallOutcome where
  | exn
  | noMatch
  | parsed (records : List RawRecord)

/-- Model of `SentimentAnalyzer.analyze_single_text(text)` (lines 19-61) with the
capability call abstracted into its outcome `o`. On a parsed record the
result is validated; any exception inside the `try` (including one raised
by `validate_result`) and a regex miss both fall back to
`fallback_analysis`. -/
def analyze_single_text (text : String) (o : SingleCallOutcome) : ResultDict :=
  match o with
  | .exn => fallback_analysis text
  | .noMatch => fallback_analysis text
  | .parsed record =>
    match validate_result record text with
    | .ok v => v
    | .error _ => fallback_analysis text

/-- The validation loop of `analyze_batch_gemini` (lines 116-121):
`for i, result in enumerate(results): if i < len(texts): validate...`.
Pairing `records.zip texts` is exactly the records with index below
`len(texts)`, matched positionally (the `id` field of a record is ignored
by the source). An exception aborts the loop (and is caught by the
enclosing `try`). -/
def validateLoop : List (RawRecord × String) → Except String (List ResultDict)
  | [] => .ok []
  | (record, text) :: rest => do
    let v ← validate_result record text
    let vs ← validateLoop rest
    pure (v :: vs)

/-- Model of `SentimentAnalyzer.analyze_batch_gemini(texts)` (lines 76-130) with the
chunk capability call abstracted into `bo` and the per-item capability
calls of the fallback-to-individual path abstracted into `so` (item index
within the chunk ↦ outcome). A failed or unparsable chunk call, and any
exception inside the `try`, fall back to calling `analyze_single_text` on
every text of the chunk. -/
def analyze_batch_gemini (texts : List String) (bo : BatchCallOutcome)
    (so : Nat → SingleCallOutcome) : List ResultDict :=
  match bo with
  | .exn => (texts.enum.map fun p => analyze_single_text p.2 (so p.1))
  | .noMatch => (texts.enum.map fun p => analyze_single_text p.2 (so p.1))
  | .parsed records =>
    match validateLoop (records.zip texts) with
    | .ok vs => vs
    | .error _ => (texts.enum.map fun p => analyze_single_text p.2 (so p.1))

/-- The chunking of `analyze_batch` (line 69):
`for i in range(0, len(texts), 5): texts[i:i+5]`. -/
def chunksOf5 {α : Type} : List α → List (List α)
  | [] => []
  | [a] => [[a]]
  | [a, b] => [[a, b]]
  | [a, b, c] => [[a, b, c]]
  | [a, b, c, d] => [[a, b, c, d]]
  | a :: b :: c :: d :: e :: rest => [a, b, c, d, e] :: chunksOf5 rest

/-- Model of `SentimentAnalyzer.analyze_batch(texts)` (lines 63-74): process chunks
of 5 in order and concatenate the chunk results. `bo i` is the outcome of
chunk `i`'s capability call, `so i j` the outcome of the individual call
for item `j` of chunk `i` on the fallback-to-individual path. -/
def analyze_batch (texts : List String) (bo : Nat → BatchCallOutcome)
    (so : Nat → Nat → SingleCallOutcome) : List ResultDict :=
  ((chunksOf5 texts).enum.map fun p => analyze_batch_gemini p.2 (bo p.1) (so p.1)).flatten

/-- Round-half-to-even to an integer, the rounding Python's `round` uses
(floats are modelled as exact rationals). -/
def rhe (q : ℚ) : ℤ :=
  let f := ⌊q⌋
  if q - (f : ℚ) < 1/2 then f
  else if 1/2 < q - (f : ℚ) then f + 1
  else if f % 2 = 0 then f else f + 1

/-- Model of Python `round(x, d)`. -/
def pyRound (q : ℚ) (d : Nat) : ℚ := (rhe (q * (10 : ℚ) ^ d) : ℚ) / (10 : ℚ) ^ d

/-- The value iterated over by `all_emotions.extend(r["emotions"])`
(lines 200-202): iterating a list yields its elements, iterating a string
yields its characters as 1-character strings, anything else raises
`TypeError`. -/
def pyElems : PyVal → Except String (List PyVal)
  | .pyList xs => .ok xs
  | .pyStr s => .ok (s.data.map fun c => .pyStr (String.mk [c]))
  | _ => .error "TypeError: object is not iterable"

/-- The `all_emotions` list built by extending per record, in order. -/
def pyConcatElems : List PyVal → Except String (List PyVal)
  | [] => .ok []
  | v :: vs => do
    let xs ← pyElems v
    let rest ← pyConcatElems vs
    pure (xs ++ rest)

/-- One step of the dict-building loop (lines 204-206):
`emotion_counts[emotion] = emotion_counts.get(emotion, 0) + 1`. A Python
dict preserves insertion order, compares keys with `==`, and keeps the
originally inserted key object; keys that are unhashable in Python (lists)
are not modelled as raising, but no claim involves them. -/
def updateCounts : List (PyVal × Nat) → PyVal → List (PyVal × Nat)
  | [], e => [(e, 1)]
  | (k, c) :: rest, e =>
    if pyEq k e then (k, c + 1) :: rest else (k, c) :: updateCounts rest e

/-- The `emotion_counts` dict as an insertion-ordered association list. -/
def emotionCounts (es : List PyVal) : List (PyVal × Nat) :=
  es.foldl updateCounts []

/-- Stable insertion of one pair into a count-descending list: the element
being inserted comes from earlier in the original list than everything
already present, so on an equal count it goes first. -/
def insertByCountDesc (x : PyVal × Nat) : List (PyVal × Nat) → List (PyVal × Nat)
  | [] => [x]
  | y :: ys => if y.2 ≤ x.2 then x :: y :: ys else y :: insertByCountDesc x ys

/-- Model of Python `sorted(pairs, key=lambda x: x[1], reverse=True)`:
a stable sort, descending in the count. -/
def sortByCountDesc : List (PyVal × Nat) → List (PyVal × Nat)
  | [] => []
  | x :: xs => insertByCountDesc x (sortByCountDesc xs)

/-- The summary dict built at lines 210-221. -/
structure SummaryStats where
  total_analyzed : Nat
  positive_count : Nat
  negative_count : Nat
  neutral_count : Nat
  positive_percentage : ℚ
  negative_percentage : ℚ
  neutral_percentage : ℚ
  average_confidence : ℚ
  average_intensity : ℚ
  top_emotions : List (PyVal × Nat)
deriving DecidableEq

/-- Return value of `get_summary_stats`: the literal empty dict `{}` for an
empty input (line 189), or a fully populated summary dict. -/
inductive StatsOutput where
  | emptyDict
  | stats (s : SummaryStats)
deriving DecidableEq

/-- Model of `SentimentAnalyzer.get_summary_stats(results)` (lines 186-221). The
only statement that can raise is `all_emotions.extend(r["emotions"])` on a
non-iterable `emotions` value. -/
def get_summary_stats (results : List ResultDict) : Except String StatsOutput :=
  if results.isEmpty then .ok .emptyDict
  else
    let total := results.length
    let positive := results.countP (fun r => r.sentiment == "positive")
    let negative := results.countP (fun r => r.sentiment == "negative")
    let neutral := results.countP (fun r => r.sentiment == "neutral")
    let avg_confidence := (results.map (fun r => r.confidence)).sum / (total : ℚ)
    let avg_intensity := (((results.map (fun r => r.intensity)).sum : ℤ) : ℚ) / (total : ℚ)
    match pyConcatElems (results.map (fun r => r.emotions)) with
    | .error e => .error e
    | .ok all_emotions =>
    let emotion_counts := emotionCounts all_emotions
    let top_emotions := (sortByCountDesc emotion_counts).take 5
    .ok (.stats
      { total_analyzed := total
        positive_count := positive
        negative_count := negative
        neutral_count := neutral
        positive_percentage := pyRound ((positive : ℚ) / (total : ℚ) * 100) 1
        negative_percentage := pyRound ((negative : ℚ) / (total : ℚ) * 100) 1
        neutral_percentage := pyRound ((neutral : ℚ) / (total : ℚ) * 100) 1
        average_confidence := pyRound avg_confidence 2
        average_intensity := pyRound avg_intensity 1
        top_emotions := top_emotions })

/-- Spec-side predicate for the data-model invariant on `emotions`:
a non-empty ordered list of strings. -/
def isNonemptyStrList : PyVal → Bool
  | .pyList xs => !xs.isEmpty && xs.all (fun v => match v with | .pyStr _ => true | _ => false)
  | _ => false

/-- Spec-side count of the occurrences of the word `w` inside `s`
(occurrences, with multiplicity, of `w` as a substring). -/
def specWordOccurrences (w : String) (s : String) : Nat :=
  (List.range s.data.length).countP (fun i => w.data.isPrefixOf (s.data.drop i))

/-- Spec-side total count of positive-word occurrences in the lower-cased
text, reading the claim's "counts occurrences of words from the fixed
positive-word list" literally (with multiplicity). -/
def specPositiveOccurrences (text : String) : Nat :=
  (positive_words.map (fun w => specWordOccurrences w (lowerStr text))).sum

/-- Spec-side total count of negative-word occurrences, as above. -/
def specNegativeOccurrences (text : String) : Nat :=
  (negative_words.map (fun w => specWordOccurrences w (lowerStr text))).sum

/-- Spec-side presence count: how many of the listed words occur (at least
once, counted once each) as substrings of the lower-cased text. -/
def presentWordCount (ws : List String) (text : String) : Nat :=
  (ws.filter (fun w => containsSub w (lowerStr text))).length

/-- One step of first-occurrence collection: keep the accumulator if some
collected key equals (Python `==`) the element, else append the element. -/
def focStep (acc : List PyVal) (e : PyVal) : List PyVal :=
  if acc.any (fun k => pyEq k e) then acc else acc ++ [e]

/-- Spec-side list of the distinct emotions in order of first occurrence
across the flattened emotion list. -/
def firstOccList (es : List PyVal) : List PyVal := es.foldl focStep []

/-- Spec-side occurrence count of the key `k` in the flattened emotion
list. -/
def countOcc (k : PyVal) (es : List PyVal) : Nat := es.countP (fun e => pyEq k e)

/-- Auxiliary: a successful `validateLoop` returns one validated record per
input pair. -/
theorem validateLoop_length (l : List (RawRecord × String)) (vs : List ResultDict)
    (h : validateLoop l = .ok vs) : vs.length = l.length := by
  induction l generalizing vs with
  | nil =>
    simp only [validateLoop] at h
    cases h
    rfl
  | cons p rest ih =>
    obtain ⟨record, text⟩ := p
    simp only [validateLoop] at h
    cases hv : validate_result record text with
    | error e => rw [hv] at h; cases h
    | ok v =>
      rw [hv] at h
      cases hrest : validateLoop rest with
      | error e =>
        rw [hrest] at h
        cases h
      | ok vs0 =>
        rw [hrest] at h
        cases h
        simp [ih vs0 hrest]

/-- C9: on every path (failed call, unparsable response, parsed array with
too few or too many entries, validation error), `analyze_batch_gemini`
returns at most one result per input text of the chunk: entries of the
parsed array beyond the number of texts are dropped by the
`if i < len(texts)` guard. -/
theorem analyze_batch_gemini_length_le (texts : List String) (bo : BatchCallOutcome)
    (so : Nat → SingleCallOutcome) :
    (analyze_batch_gemini texts bo so).length ≤ texts.length := by
  cases bo with
  | exn => simp [analyze_batch_gemini]
  | noMatch => simp [analyze_batch_gemini]
  | parsed records =>
    simp only [analyze_batch_gemini]
    cases h : validateLoop (records.zip texts) with
    | error e => simp
    | ok vs =>
      have := validateLoop_length _ _ h
      simp only [this, List.length_zip]
      omega

/-- C10: on the empty input list `analyze_batch` returns the empty list;
the result does not depend on the capability oracles at all (no chunk is
formed, so no capability call is made). -/
theorem analyze_batch_empty (bo : Nat → BatchCallOutcome)
    (so : Nat → Nat → SingleCallOutcome) : analyze_batch [] bo so = [] := rfl

/-- C6 (counterexample): on the empty Result list `get_summary_stats`
returns the literal empty dict, not a stats record with `total_analyzed`
and per-sentiment count fields present and equal to zero — in particular it
is not the zeroed `SummaryStats`. -/
theorem get_summary_stats_empty_returns_empty_dict :
    get_summary_stats [] = .ok .emptyDict ∧
    get_summary_stats [] ≠ .ok (.stats
      { total_analyzed := 0, positive_count := 0, negative_count := 0, neutral_count := 0,
        positive_percentage := 0, negative_percentage := 0, neutral_percentage := 0,
        average_confidence := 0, average_intensity := 0, top_emotions := [] }) := by
  constructor
  · decide
  · decide

/-- C6 (amended): for the empty Result list `get_summary_stats` returns the
empty dict `{}` (no fields at all), without failing. -/
theorem get_summary_stats_on_empty_input (results : List ResultDict)
    (h : results = []) : get_summary_stats results = .ok .emptyDict := by
  subst h; decide

/-- Witness for C6 (amended) at the concrete empty list. -/
theorem get_summary_stats_on_empty_input_witness :
    get_summary_stats [] = .ok .emptyDict :=
  get_summary_stats_on_empty_input [] rfl

/-- C1: evaluation at the failing input. A 5-text batch whose chunk call
parses to an array with entries for ids 0, 1, 2 and 4 only (id 3 omitted)
yields 4 results, not 5: the merge loop validates the returned entries
positionally and never fallback-fills the missing id, shrinking the output
below the input length. -/
theorem analyze_batch_drops_unreturned_ids :
    (analyze_batch ["t0", "t1", "t2", "t3", "t4"]
      (fun _ => .parsed [[("id", .pyInt 0)], [("id", .pyInt 1)],
                         [("id", .pyInt 2)], [("id", .pyInt 4)]])
      (fun _ _ => .exn)).length = 4 ∧
    (["t0", "t1", "t2", "t3", "t4"] : List String).length = 5 := by
  constructor
  · with_unfolding_all decide
  · decide

/-- C4 (counterexample): when the chunk capability call raises, the items
are not unconditionally classified by the local fallback: each one triggers
a further, individual capability call, and when that call succeeds the item
gets the capability's result — here sentiment `"positive"` with confidence
`0.9`, differing from `fallback_analysis "hello"` (neutral, `0.5`). -/
theorem chunk_failure_triggers_individual_calls :
    (analyze_batch ["hello"] (fun _ => .exn)
        (fun _ _ => .parsed [("sentiment", .pyStr "positive"), ("confidence", .pyFloat (9/10))])).map
      (fun r => (r.sentiment, r.confidence)) = [("positive", 9/10)] ∧
    (fallback_analysis "hello").sentiment = "neutral" ∧
    (fallback_analysis "hello").confidence = 1/2 := by
  refine ⟨?_, ?_, ?_⟩ <;> with_unfolding_all decide

/-- C4 (amended): a failed or unparsable chunk call is not retried at chunk
granularity; instead every item of the chunk is re-analyzed through an
individual capability call (`analyze_single_text`), and only an item whose
individual call itself fails or is unparsable is classified by the local
`fallback_analysis`. -/
theorem chunk_failure_falls_back_to_individual (texts : List String)
    (bo : BatchCallOutcome) (so : Nat → SingleCallOutcome)
    (h : bo = .exn ∨ bo = .noMatch) :
    analyze_batch_gemini texts bo so =
      (texts.enum.map fun p => analyze_single_text p.2 (so p.1)) ∧
    (∀ (t : String) (o : SingleCallOutcome), (o = .exn ∨ o = .noMatch) →
      analyze_single_text t o = fallback_analysis t) := by
  constructor
  · rcases h with h | h <;> subst h <;> rfl
  · intro t o ho
    rcases ho with ho | ho <;> subst ho <;> rfl

/-- Witness for C4 (amended) at a concrete one-text chunk whose chunk call
and individual call both raise. -/
theorem chunk_failure_falls_back_to_individual_witness :
    analyze_batch_gemini ["x"] .exn (fun _ => .exn) = [fallback_analysis "x"] ∧
    analyze_single_text "x" .exn = fallback_analysis "x" := by
  have h := chunk_failure_falls_back_to_individual ["x"] .exn (fun _ => .exn) (Or.inl rfl)
  refine ⟨h.1.trans ?_, h.2 "x" .exn (Or.inl rfl)⟩
  show [analyze_single_text "x" .exn] = [fallback_analysis "x"]
  rw [h.2 "x" .exn (Or.inl rfl)]

/-- C2 (counterexample): `validate_result` is not total — a record whose
`sentiment` field holds a non-string (here the integer `1`) makes
`result.get("sentiment", "neutral").lower()` raise `AttributeError` instead
of silently defaulting the field. -/
theorem validate_result_raises_on_nonstring_sentiment :
    validate_result [("sentiment", .pyInt 1)] "hi" =
      .error "AttributeError: object has no attribute lower" := by
  with_unfolding_all decide

/-- C3 (counterexample): a record with an `emotions` field that is present
but an empty list passes validation unchanged, so the produced Result
violates the claimed invariant that `emotions` is a non-empty list of
strings. -/
theorem validator_keeps_empty_emotions :
    validate_result [("emotions", .pyList [])] "t" = .ok
      { sentiment := "neutral", confidence := 1/2, emotions := .pyList [],
        key_phrases := .pyList [], intensity := 5, original_text := "t" } ∧
    isNonemptyStrList (.pyList []) = false := by
  refine ⟨?_, ?_⟩ <;> with_unfolding_all decide

/-- C5 (counterexample): in `"love love love bad bad"` the positive word
`"love"` occurs 3 times and the negative word `"bad"` twice, so
occurrence-counting would classify it positive with confidence `0.6`; the
code counts each listed word at most once (1 vs 1) and returns neutral with
confidence `0.5`. -/
theorem fallback_counts_presence_not_occurrences :
    specPositiveOccurrences "love love love bad bad" = 3 ∧
    specNegativeOccurrences "love love love bad bad" = 2 ∧
    (fallback_analysis "love love love bad bad").sentiment = "neutral" ∧
    (fallback_analysis "love love love bad bad").confidence = 1/2 := by
  refine ⟨?_, ?_, ?_, ?_⟩ <;> with_unfolding_all decide

/-- C2 (amended): for every record whose *present* `sentiment` field is a
string and whose *present* `confidence` and `intensity` fields are
coercible by `float()` and `int()`, `validate_result` succeeds and returns a
record with sentiment in the three-value enum, confidence clamped to
`[0,1]`, intensity clamped to `[1,10]`; a *missing* sentiment, confidence,
intensity, emotions or key_phrases field is replaced by its stated default
(`"neutral"`, `0.5`, `5`, `["neutral"]`, `[]`). Present `emotions` /
`key_phrases` values are kept as-is without any type check, and a present
non-coercible field raises instead of being defaulted (see the
counterexample). -/
theorem validate_result_defaults_and_clamps (r : RawRecord) (t : String)
    (hs : ∀ v, rGet r "sentiment" = some v → ∃ s0, v = .pyStr s0)
    (hc : ∀ v, rGet r "confidence" = some v → ∃ q, pyToFloat v = .ok q)
    (hi : ∀ v, rGet r "intensity" = some v → ∃ n, pyToInt v = .ok n) :
    ∃ rec, validate_result r t = .ok rec ∧
      (rec.sentiment = "positive" ∨ rec.sentiment = "negative" ∨ rec.sentiment = "neutral") ∧
      0 ≤ rec.confidence ∧ rec.confidence ≤ 1 ∧ 1 ≤ rec.intensity ∧ rec.intensity ≤ 10 ∧
      (rGet r "sentiment" = none → rec.sentiment = "neutral") ∧
      (rGet r "confidence" = none → rec.confidence = 1/2) ∧
      (rGet r "intensity" = none → rec.intensity = 5) ∧
      rec.emotions = (rGet r "emotions").getD (.pyList [.pyStr "neutral"]) ∧
      rec.key_phrases = (rGet r "key_phrases").getD (.pyList []) ∧
      rec.original_text = pyTruncate t := by
  have hsent : ∃ s0, pyLower ((rGet r "sentiment").getD (.pyStr "neutral")) = .ok s0 ∧
      (rGet r "sentiment" = none → s0 = "neutral") := by
    cases h0 : rGet r "sentiment" with
    | none => exact ⟨"neutral", by decide, fun _ => rfl⟩
    | some v =>
      obtain ⟨s0, rfl⟩ := hs v h0
      exact ⟨lowerStr s0, rfl, fun hx => Option.noConfusion hx⟩
  have hconf : ∃ q, pyToFloat ((rGet r "confidence").getD (.pyFloat (1/2))) = .ok q ∧
      (rGet r "confidence" = none → q = 1/2) := by
    cases h0 : rGet r "confidence" with
    | none => exact ⟨1/2, rfl, fun _ => rfl⟩
    | some v =>
      obtain ⟨q, hq⟩ := hc v h0
      exact ⟨q, hq, fun hx => Option.noConfusion hx⟩
  have hint : ∃ n, pyToInt ((rGet r "intensity").getD (.pyInt 5)) = .ok n ∧
      (rGet r "intensity" = none → n = 5) := by
    cases h0 : rGet r "intensity" with
    | none => exact ⟨5, rfl, fun _ => rfl⟩
    | some v =>
      obtain ⟨n, hn⟩ := hi v h0
      exact ⟨n, hn, fun hx => Option.noConfusion hx⟩
  obtain ⟨s0, hs0, hsd⟩ := hsent
  obtain ⟨q, hq0, hqd⟩ := hconf
  obtain ⟨n, hn0, hnd⟩ := hint
  refine ⟨{ sentiment := if ["positive", "negative", "neutral"].contains s0 then s0
              else "neutral",
            confidence := max 0 (min 1 q),
            emotions := (rGet r "emotions").getD (.pyList [.pyStr "neutral"]),
            key_phrases := (rGet r "key_phrases").getD (.pyList []),
            intensity := max 1 (min 10 n),
            original_text := pyTruncate t },
    ?_, ?_, le_max_left _ _, max_le (by norm_num) (min_le_left _ _),
    le_max_left _ _, max_le (by norm_num) (min_le_left _ _), ?_, ?_, ?_, rfl, rfl, rfl⟩
  · simp only [validate_result, hs0, hq0, hn0]
  · by_cases hmem : (["positive", "negative", "neutral"].contains s0) = true
    · simp only [hmem, if_true]
      simpa using hmem
    · simp only [hmem, if_false]
      right; right; rfl
  · intro hx
    rw [hsd hx]
    show (if (["positive", "negative", "neutral"].contains "neutral") = true then "neutral"
          else "neutral") = "neutral"
    decide
  · intro hx
    rw [hqd hx]
    show max 0 (min 1 (1/2 : ℚ)) = 1/2
    with_unfolding_all decide
  · intro hx
    rw [hnd hx]
    show max 1 (min 10 (5 : ℤ)) = 5
    decide

/-- Witness for C2 (amended): the concrete record
`{"confidence": 2.0, "intensity": 50}` (missing sentiment, out-of-range
numerics) validates successfully. -/
theorem validate_result_defaults_and_clamps_witness :
    (validate_result [("confidence", .pyFloat 2), ("intensity", .pyInt 50)] "w").isOk = true := by
  obtain ⟨rec, hrec, -⟩ :=
    validate_result_defaults_and_clamps
      [("confidence", .pyFloat 2), ("intensity", .pyInt 50)] "w"
      (by intro v h
          rw [(by decide : rGet [("confidence", .pyFloat 2), ("intensity", .pyInt 50)]
                "sentiment" = none)] at h
          cases h)
      (by intro v h
          rw [(by with_unfolding_all decide :
                rGet [("confidence", .pyFloat 2), ("intensity", .pyInt 50)] "confidence" =
                some (.pyFloat 2))] at h
          cases h
          exact ⟨2, rfl⟩)
      (by intro v h
          rw [(by with_unfolding_all decide :
                rGet [("confidence", .pyFloat 2), ("intensity", .pyInt 50)] "intensity" =
                some (.pyInt 50))] at h
          cases h
          exact ⟨50, rfl⟩)
  rw [hrec]
  rfl

/-- C3 (amended): every record produced by `validate_result` (on success)
or by `fallback_analysis` has sentiment in {positive, negative, neutral},
confidence in `[0,1]` and integer intensity in `[1,10]`; fallback results
additionally always carry `emotions = ["neutral"]` (non-empty). The
validator path, however, passes `emotions`/`key_phrases` through unchecked,
so for it the claimed non-empty-string-list invariant on `emotions` fails
(see the counterexample). -/
theorem results_within_numeric_domain :
    (∀ (r : RawRecord) (t : String) (rec : ResultDict), validate_result r t = .ok rec →
      (rec.sentiment = "positive" ∨ rec.sentiment = "negative" ∨ rec.sentiment = "neutral") ∧
      0 ≤ rec.confidence ∧ rec.confidence ≤ 1 ∧ 1 ≤ rec.intensity ∧ rec.intensity ≤ 10) ∧
    (∀ t : String,
      ((fallback_analysis t).sentiment = "positive" ∨
        (fallback_analysis t).sentiment = "negative" ∨
        (fallback_analysis t).sentiment = "neutral") ∧
      0 ≤ (fallback_analysis t).confidence ∧ (fallback_analysis t).confidence ≤ 1 ∧
      1 ≤ (fallback_analysis t).intensity ∧ (fallback_analysis t).intensity ≤ 10 ∧
      (fallback_analysis t).emotions = .pyList [.pyStr "neutral"] ∧
      isNonemptyStrList (fallback_analysis t).emotions = true) := by
  constructor
  · intro r t rec h
    simp only [validate_result] at h
    cases h1 : pyLower ((rGet r "sentiment").getD (.pyStr "neutral")) with
    | error e => rw [h1] at h; cases h
    | ok s0 =>
      rw [h1] at h
      cases h2 : pyToFloat ((rGet r "confidence").getD (.pyFloat (1/2))) with
      | error e => rw [h2] at h; cases h
      | ok q =>
        rw [h2] at h
        cases h3 : pyToInt ((rGet r "intensity").getD (.pyInt 5)) with
        | error e => rw [h3] at h; cases h
        | ok n =>
          rw [h3] at h
          cases h
          refine ⟨?_, le_max_left _ _, max_le (by norm_num) (min_le_left _ _),
            le_max_left _ _, max_le (by norm_num) (min_le_left _ _)⟩
          by_cases hmem : (["positive", "negative", "neutral"].contains s0) = true
          · simp only [hmem, if_true]
            simpa using hmem
          · simp only [hmem, if_false]
            right; right; rfl
  · intro t
    simp only [fallback_analysis]
    split
    · exact ⟨Or.inl rfl, by norm_num, by norm_num, by norm_num, by norm_num, by trivial,
        by trivial⟩
    · split
      · exact ⟨Or.inr (Or.inl rfl), by norm_num, by norm_num, by norm_num, by norm_num,
          by trivial, by trivial⟩
      · exact ⟨Or.inr (Or.inr rfl), by norm_num, by norm_num, by norm_num, by norm_num,
          by trivial, by trivial⟩

/-- Witness for C3 (amended) at the empty record: all defaults, giving the
neutral record with confidence 1/2 and intensity 5. -/
theorem results_within_numeric_domain_witness :
    (({ sentiment := "neutral", confidence := 1/2, emotions := .pyList [.pyStr "neutral"],
        key_phrases := .pyList [], intensity := 5,
        original_text := "x" } : ResultDict).sentiment = "positive" ∨
      ({ sentiment := "neutral", confidence := 1/2, emotions := .pyList [.pyStr "neutral"],
         key_phrases := .pyList [], intensity := 5,
         original_text := "x" } : ResultDict).sentiment = "negative" ∨
      ({ sentiment := "neutral", confidence := 1/2, emotions := .pyList [.pyStr "neutral"],
         key_phrases := .pyList [], intensity := 5,
         original_text := "x" } : ResultDict).sentiment = "neutral") ∧
    0 ≤ (({ sentiment := "neutral", confidence := 1/2, emotions := .pyList [.pyStr "neutral"],
            key_phrases := .pyList [], intensity := 5,
            original_text := "x" } : ResultDict)).confidence ∧
    (({ sentiment := "neutral", confidence := 1/2, emotions := .pyList [.pyStr "neutral"],
        key_phrases := .pyList [], intensity := 5,
        original_text := "x" } : ResultDict)).confidence ≤ 1 ∧
    1 ≤ (({ sentiment := "neutral", confidence := 1/2, emotions := .pyList [.pyStr "neutral"],
            key_phrases := .pyList [], intensity := 5,
            original_text := "x" } : ResultDict)).intensity ∧
    (({ sentiment := "neutral", confidence := 1/2, emotions := .pyList [.pyStr "neutral"],
        key_phrases := .pyList [], intensity := 5,
        original_text := "x" } : ResultDict)).intensity ≤ 10 :=
  results_within_numeric_domain.1 [] "x"
    { sentiment := "neutral", confidence := 1/2, emotions := .pyList [.pyStr "neutral"],
      key_phrases := .pyList [], intensity := 5, original_text := "x" }
    (by with_unfolding_all decide)

/-- C5 (amended): `fallback_analysis` is a pure function of the text that
counts, per fixed word list, how many listed words occur (case-insensitive,
as substrings, each counted at most once) in the text, classifying positive
(confidence 0.6) when more positive than negative listed words occur,
negative (confidence 0.6) in the opposite case and neutral (confidence 0.5)
on a tie, always with `emotions = ["neutral"]`, `key_phrases = []` and
`intensity = 5`. -/
theorem fallback_analysis_heuristic (text : String) :
    (presentWordCount negative_words text < presentWordCount positive_words text →
      (fallback_analysis text).sentiment = "positive" ∧
      (fallback_analysis text).confidence = 3/5) ∧
    (presentWordCount positive_words text < presentWordCount negative_words text →
      (fallback_analysis text).sentiment = "negative" ∧
      (fallback_analysis text).confidence = 3/5) ∧
    (presentWordCount positive_words text = presentWordCount negative_words text →
      (fallback_analysis text).sentiment = "neutral" ∧
      (fallback_analysis text).confidence = 1/2) ∧
    (fallback_analysis text).emotions = .pyList [.pyStr "neutral"] ∧
    (fallback_analysis text).key_phrases = .pyList [] ∧
    (fallback_analysis text).intensity = 5 := by
  have hp : presentWordCount positive_words text =
      positive_words.countP (fun word => containsSub word (lowerStr text)) :=
    (List.countP_eq_length_filter _ _).symm
  have hn : presentWordCount negative_words text =
      negative_words.countP (fun word => containsSub word (lowerStr text)) :=
    (List.countP_eq_length_filter _ _).symm
  rw [hp, hn]
  simp only [fallback_analysis]
  split
  · rename_i hlt
    exact ⟨fun _ => ⟨rfl, rfl⟩, fun hgt => absurd hgt (by omega), fun heq => absurd heq (by omega),
      by trivial, by trivial, by trivial⟩
  · split
    · rename_i hge hlt
      exact ⟨fun hx => absurd hx (by omega), fun _ => ⟨rfl, rfl⟩,
        fun heq => absurd heq (by omega), by trivial, by trivial, by trivial⟩
    · rename_i hge1 hge2
      exact ⟨fun hx => absurd hx (by omega), fun hx => absurd hx (by omega),
        fun _ => ⟨rfl, rfl⟩, by trivial, by trivial, by trivial⟩

/-- Witness for C5 (amended) at `"good"`: one positive listed word occurs,
no negative one, so the positive branch applies. -/
theorem fallback_analysis_heuristic_witness :
    (fallback_analysis "good").sentiment = "positive" ∧
    (fallback_analysis "good").confidence = 3/5 :=
  (fallback_analysis_heuristic "good").1 (by with_unfolding_all decide)

/-- The rounded value differs from the exact one by at most 1/2. -/
theorem rhe_abs_le (x : ℚ) : |((rhe x : ℤ) : ℚ) - x| ≤ 1/2 := by
  have h1 : ((⌊x⌋ : ℤ) : ℚ) ≤ x := Int.floor_le x
  have h2 : x < ((⌊x⌋ : ℤ) : ℚ) + 1 := Int.lt_floor_add_one x
  simp only [rhe]
  split_ifs with ha hb hc <;> rw [abs_le] <;> push_cast <;> constructor <;> linarith

/-- Three 1-decimal roundings of percentages summing exactly to 100 sum to
within 1/10 of 100: each rounding error is at most 1/20 and ten times the
sum of the rounded values is an integer. -/
theorem pct_sum_bound (p n m t : ℕ) (hpt : p + n + m = t) (ht : 0 < t) :
    |pyRound ((p : ℚ) / (t : ℚ) * 100) 1 + pyRound ((n : ℚ) / (t : ℚ) * 100) 1 +
      pyRound ((m : ℚ) / (t : ℚ) * 100) 1 - 100| ≤ 1/10 := by
  have ht' : (t : ℚ) ≠ 0 := by
    exact_mod_cast ht.ne'
  set vp := (p : ℚ) / (t : ℚ) * 100 with hvp
  set vn := (n : ℚ) / (t : ℚ) * 100 with hvn
  set vm := (m : ℚ) / (t : ℚ) * 100 with hvm
  have hsum : vp * 10 + vn * 10 + vm * 10 = 1000 := by
    have hcast : (p : ℚ) + (n : ℚ) + (m : ℚ) = (t : ℚ) := by
      exact_mod_cast congrArg (Nat.cast : ℕ → ℚ) hpt
    rw [hvp, hvn, hvm]
    field_simp
    linarith
  set zp := rhe (vp * 10) with hzp
  set zn := rhe (vn * 10) with hzn
  set zm := rhe (vm * 10) with hzm
  have hp1 : pyRound vp 1 = (zp : ℚ) / 10 := by simp [pyRound, hzp]
  have hn1 : pyRound vn 1 = (zn : ℚ) / 10 := by simp [pyRound, hzn]
  have hm1 : pyRound vm 1 = (zm : ℚ) / 10 := by simp [pyRound, hzm]
  have bp := rhe_abs_le (vp * 10)
  have bn := rhe_abs_le (vn * 10)
  have bm := rhe_abs_le (vm * 10)
  have hzq : |((zp + zn + zm : ℤ) : ℚ) - 1000| ≤ 3/2 := by
    have hrw : ((zp + zn + zm : ℤ) : ℚ) - 1000 =
        ((zp : ℚ) - vp * 10) + ((zn : ℚ) - vn * 10) + ((zm : ℚ) - vm * 10) := by
      push_cast
      linarith
    rw [hrw]
    calc |((zp : ℚ) - vp * 10) + ((zn : ℚ) - vn * 10) + ((zm : ℚ) - vm * 10)|
        ≤ |(zp : ℚ) - vp * 10| + |(zn : ℚ) - vn * 10| + |(zm : ℚ) - vm * 10| :=
          abs_add_three _ _ _
      _ ≤ 3/2 := by linarith
  have hzint : |zp + zn + zm - 1000| ≤ 1 := by
    by_contra hcon
    push_neg at hcon
    have h2le : (2 : ℤ) ≤ |zp + zn + zm - 1000| := hcon
    have : (2 : ℚ) ≤ |((zp + zn + zm : ℤ) : ℚ) - 1000| := by
      have : ((zp + zn + zm : ℤ) : ℚ) - 1000 = (((zp + zn + zm - 1000 : ℤ)) : ℚ) := by
        push_cast; ring
      rw [this, ← Int.cast_abs]
      exact_mod_cast h2le
    linarith
  have habs : |((zp + zn + zm - 1000 : ℤ) : ℚ)| ≤ 1 := by
    rw [← Int.cast_abs]
    exact_mod_cast hzint
  rw [hp1, hn1, hm1]
  have hrw2 : (zp : ℚ) / 10 + (zn : ℚ) / 10 + (zm : ℚ) / 10 - 100 =
      ((zp + zn + zm - 1000 : ℤ) : ℚ) / 10 := by
    push_cast
    ring
  rw [hrw2, abs_div]
  rw [show |(10 : ℚ)| = 10 by norm_num]
  linarith

/-- Each Result with an in-enum sentiment is counted by exactly one of the
three per-sentiment counters. -/
theorem countP_sentiments (results : List ResultDict)
    (hs : ∀ r ∈ results, r.sentiment = "positive" ∨ r.sentiment = "negative" ∨
      r.sentiment = "neutral") :
    results.countP (fun r => r.sentiment == "positive") +
      results.countP (fun r => r.sentiment == "negative") +
      results.countP (fun r => r.sentiment == "neutral") = results.length := by
  induction results with
  | nil => rfl
  | cons r rest ih =>
    have hr := hs r (by simp)
    have hrest : ∀ x ∈ rest, x.sentiment = "positive" ∨ x.sentiment = "negative" ∨
        x.sentiment = "neutral" := fun x hx => hs x (by simp [hx])
    rcases hr with h | h | h <;>
      simp [List.countP_cons, h, ← ih hrest] <;> omega

/-- C8: for every Result list whose sentiments are in the three-value enum
(as every produced Result's are) and whose summary is computed, the three
rounded per-sentiment percentages sum to within 0.1 of 100. -/
theorem percentages_sum_within_tenth (results : List ResultDict) (s : SummaryStats)
    (hs : ∀ r ∈ results, r.sentiment = "positive" ∨ r.sentiment = "negative" ∨
      r.sentiment = "neutral")
    (h : get_summary_stats results = .ok (.stats s)) :
    |s.positive_percentage + s.negative_percentage + s.neutral_percentage - 100| ≤ 1/10 := by
  by_cases hne : results.isEmpty = true
  · rw [get_summary_stats, if_pos hne] at h
    cases h
  · rw [get_summary_stats, if_neg hne] at h
    cases hA : pyConcatElems (results.map fun r => r.emotions) with
    | error e => rw [hA] at h; cases h
    | ok A =>
      rw [hA] at h
      cases h
      have ht : 0 < results.length := by
        cases results with
        | nil => simp at hne
        | cons a l => simp
      exact pct_sum_bound _ _ _ _ (countP_sentiments results hs) ht

/-- Witness for C8 at a concrete 3-element Result list (one of each
sentiment): the percentages are 33.3 each and their sum 99.9 is within 0.1
of 100. -/
theorem percentages_sum_within_tenth_witness :
    |(333/10 : ℚ) + 333/10 + 333/10 - 100| ≤ 1/10 :=
  percentages_sum_within_tenth
    [{ sentiment := "positive", confidence := 1/2, emotions := .pyList [],
       key_phrases := .pyList [], intensity := 5, original_text := "a" },
     { sentiment := "negative", confidence := 1/2, emotions := .pyList [],
       key_phrases := .pyList [], intensity := 5, original_text := "b" },
     { sentiment := "neutral", confidence := 1/2, emotions := .pyList [],
       key_phrases := .pyList [], intensity := 5, original_text := "c" }]
    { total_analyzed := 3, positive_count := 1, negative_count := 1, neutral_count := 1,
      positive_percentage := 333/10, negative_percentage := 333/10,
      neutral_percentage := 333/10, average_confidence := 1/2, average_intensity := 5,
      top_emotions := [] }
    (by decide)
    (by with_unfolding_all decide)

/-- Python `==` is reflexive. -/
theorem pyEq_refl (a : PyVal) : pyEq a a = true := by simp [pyEq]

/-- Python `==` holds exactly when the normal forms agree. -/
theorem pyEq_iff (a b : PyVal) : pyEq a b = true ↔ pyNormalize a = pyNormalize b := by
  simp [pyEq]

theorem countOcc_append (k e : PyVal) (es : List PyVal) :
    countOcc k (es ++ [e]) = countOcc k es + (if pyEq k e then 1 else 0) := by
  simp [countOcc, List.countP_append, List.countP_cons]

theorem foc_rep (es : List PyVal) : ∀ acc x, ((∃ k ∈ acc, pyEq k x = true) ∨ x ∈ es) →
    ∃ k ∈ es.foldl focStep acc, pyEq k x = true := by
  induction es with
  | nil =>
    intro acc x h
    rcases h with h | h
    · simpa using h
    · exact absurd h (List.not_mem_nil x)
  | cons e es ih =>
    intro acc x h
    simp only [List.foldl_cons]
    rcases h with ⟨k, hk, hkx⟩ | h
    · refine ih (focStep acc e) x (Or.inl ⟨k, ?_, hkx⟩)
      rw [focStep]
      split
      · exact hk
      · exact List.mem_append_left _ hk
    · rcases List.mem_cons.mp h with rfl | hx
      · by_cases hc : acc.any (fun k => pyEq k x) = true
        · obtain ⟨k, hk, hkx⟩ := List.any_eq_true.mp hc
          refine ih _ x (Or.inl ⟨k, ?_, hkx⟩)
          rw [focStep, if_pos hc]
          exact hk
        · refine ih _ x (Or.inl ⟨x, ?_, pyEq_refl x⟩)
          rw [focStep, if_neg hc]
          exact List.mem_append_right _ (by simp)
      · exact ih _ x (Or.inr hx)

theorem foc_pairwise (es : List PyVal) : ∀ acc,
    acc.Pairwise (fun a b => pyEq a b = false) →
    (es.foldl focStep acc).Pairwise (fun a b => pyEq a b = false) := by
  induction es with
  | nil => intro acc h; simpa using h
  | cons e es ih =>
    intro acc h
    simp only [List.foldl_cons]
    apply ih
    rw [focStep]
    split
    · exact h
    · rename_i hc
      rw [List.pairwise_append]
      refine ⟨h, by simp, ?_⟩
      intro a ha b hb
      simp only [List.mem_singleton] at hb
      subst hb
      have hall : ∀ k ∈ acc, pyEq k b = false := by
        simpa [List.any_eq_true] using hc
      exact hall a ha

theorem updateCounts_hit (L : List PyVal) (cnt : PyVal → Nat) (e : PyVal)
    (hpw : L.Pairwise (fun a b => pyEq a b = false))
    (hex : ∃ k ∈ L, pyEq k e = true) :
    updateCounts (L.map fun k => (k, cnt k)) e =
      L.map (fun k => (k, cnt k + if pyEq k e then 1 else 0)) := by
  induction L with
  | nil => simp at hex
  | cons k L ih =>
    simp only [List.map_cons, updateCounts]
    by_cases hk : pyEq k e = true
    · rw [if_pos hk, if_pos hk]
      have hL : ∀ k' ∈ L, pyEq k' e = false := by
        intro k' hk'
        have hkk' : pyEq k k' = false := (List.pairwise_cons.mp hpw).1 k' hk'
        by_contra hcon
        have hk'e : pyEq k' e = true := by
          revert hcon; cases hpe : pyEq k' e <;> simp
        have h1 : pyNormalize k = pyNormalize e := (pyEq_iff _ _).mp hk
        have h2 : pyNormalize k' = pyNormalize e := (pyEq_iff _ _).mp hk'e
        have : pyEq k k' = true := (pyEq_iff _ _).mpr (h1.trans h2.symm)
        rw [this] at hkk'
        cases hkk'
      congr 1
      symm
      apply List.map_congr_left
      intro a ha
      rw [if_neg (by rw [hL a ha]; simp)]
      simp
    · rw [if_neg hk, if_neg hk]
      rcases hex with ⟨k0, hk0, hk0e⟩
      rcases List.mem_cons.mp hk0 with rfl | hk0L
      · exact absurd hk0e hk
      · rw [ih (List.pairwise_cons.mp hpw).2 ⟨k0, hk0L, hk0e⟩]
        simp

theorem updateCounts_miss (L : List PyVal) (cnt : PyVal → Nat) (e : PyVal)
    (hall : ∀ k ∈ L, pyEq k e = false) :
    updateCounts (L.map fun k => (k, cnt k)) e = (L.map fun k => (k, cnt k)) ++ [(e, 1)] := by
  induction L with
  | nil => rfl
  | cons k L ih =>
    have hk := hall k (by simp)
    simp only [List.map_cons, updateCounts, hk]
    simp [ih (fun k' h => hall k' (by simp [h]))]

/-- The dict-building loop computes exactly the association of each
distinct emotion, in order of first occurrence, with its occurrence
count. -/
theorem emotionCounts_char (es : List PyVal) :
    emotionCounts es = (firstOccList es).map (fun k => (k, countOcc k es)) := by
  induction es using List.reverseRecOn with
  | nil => rfl
  | append_singleton es e ih =>
    have hfoc : firstOccList (es ++ [e]) = focStep (firstOccList es) e := by
      simp [firstOccList, List.foldl_append]
    have hec : emotionCounts (es ++ [e]) = updateCounts (emotionCounts es) e := by
      simp [emotionCounts, List.foldl_append]
    rw [hec, ih, hfoc]
    by_cases hc : (firstOccList es).any (fun k => pyEq k e) = true
    · rw [focStep, if_pos hc]
      rw [updateCounts_hit (firstOccList es) (fun k => countOcc k es) e
        (foc_pairwise es [] (by simp)) (List.any_eq_true.mp hc)]
      symm
      apply List.map_congr_left
      intro a ha
      rw [countOcc_append]
    · rw [focStep, if_neg hc]
      have hall : ∀ k ∈ firstOccList es, pyEq k e = false := by
        simpa [List.any_eq_true] using hc
      rw [updateCounts_miss _ _ _ hall, List.map_append]
      congr 1
      · apply List.map_congr_left
        intro a ha
        rw [countOcc_append, if_neg (by rw [hall a ha]; simp)]
        simp
      · have hzero : countOcc e es = 0 := by
          by_contra hpos
          have : 0 < countOcc e es := Nat.pos_of_ne_zero hpos
          obtain ⟨x, hx, hex⟩ := List.countP_pos_iff.mp this
          obtain ⟨k, hkmem, hkx⟩ := foc_rep es [] x (Or.inr hx)
          have h1 : pyNormalize k = pyNormalize x := (pyEq_iff _ _).mp hkx
          have h2 : pyNormalize e = pyNormalize x := (pyEq_iff _ _).mp hex
          have : pyEq k e = true := (pyEq_iff _ _).mpr (h1.trans h2.symm)
          rw [hall k hkmem] at this
          cases this
        simp [countOcc_append, hzero, pyEq_refl]

theorem insertByCountDesc_perm (x : PyVal × Nat) (l : List (PyVal × Nat)) :
    (insertByCountDesc x l).Perm (x :: l) := by
  induction l with
  | nil => exact List.Perm.refl _
  | cons y ys ih =>
    rw [insertByCountDesc]
    split
    · exact List.Perm.refl _
    · exact (ih.cons y).trans (List.Perm.swap x y ys)

theorem sortByCountDesc_perm (l : List (PyVal × Nat)) : (sortByCountDesc l).Perm l := by
  induction l with
  | nil => exact List.Perm.refl _
  | cons x xs ih =>
    rw [sortByCountDesc]
    exact (insertByCountDesc_perm x _).trans (ih.cons x)

theorem insertByCountDesc_sorted (x : PyVal × Nat) (l : List (PyVal × Nat))
    (h : List.Sorted (fun a b : PyVal × Nat => b.2 ≤ a.2) l) :
    List.Sorted (fun a b : PyVal × Nat => b.2 ≤ a.2) (insertByCountDesc x l) := by
  induction l with
  | nil => simp [insertByCountDesc]
  | cons y ys ih =>
    rw [insertByCountDesc]
    split
    · rename_i hyx
      rw [List.sorted_cons]
      refine ⟨?_, h⟩
      intro b hb
      rw [List.sorted_cons] at h
      rcases List.mem_cons.mp hb with rfl | hbys
      · exact hyx
      · exact le_trans (h.1 b hbys) hyx
    · rename_i hyx
      rw [List.sorted_cons] at h ⊢
      obtain ⟨hy, hys⟩ := h
      refine ⟨?_, ih hys⟩
      intro b hb
      have hb2 := (insertByCountDesc_perm x ys).mem_iff.mp hb
      rcases List.mem_cons.mp hb2 with rfl | hbys
      · omega
      · exact hy b hbys

theorem sortByCountDesc_sorted (l : List (PyVal × Nat)) :
    List.Sorted (fun a b : PyVal × Nat => b.2 ≤ a.2) (sortByCountDesc l) := by
  induction l with
  | nil => simp [sortByCountDesc]
  | cons x xs ih =>
    rw [sortByCountDesc]
    exact insertByCountDesc_sorted x _ ih

theorem insert_filter_eq (x : PyVal × Nat) (l : List (PyVal × Nat)) (c : Nat) (hx : x.2 = c) :
    (insertByCountDesc x l).filter (fun p => p.2 == c) =
      x :: l.filter (fun p => p.2 == c) := by
  induction l with
  | nil => simp [insertByCountDesc, List.filter_cons, hx]
  | cons y ys ih =>
    rw [insertByCountDesc]
    split
    · simp [List.filter_cons, hx]
    · rename_i hyx
      have hyc : (y.2 == c) = false := by
        subst hx
        simp
        omega
      simp only [List.filter_cons, hyc]
      rw [ih]
      simp

theorem insert_filter_ne (x : PyVal × Nat) (l : List (PyVal × Nat)) (c : Nat) (hx : x.2 ≠ c) :
    (insertByCountDesc x l).filter (fun p => p.2 == c) = l.filter (fun p => p.2 == c) := by
  induction l with
  | nil => simp [insertByCountDesc, List.filter_cons, hx]
  | cons y ys ih =>
    rw [insertByCountDesc]
    split
    · simp [List.filter_cons, hx]
    · simp only [List.filter_cons]
      rw [ih]

/-- Stability of the modelled Python sort: entries with any fixed count
keep their original relative order. -/
theorem sort_filter_stable (l : List (PyVal × Nat)) (c : Nat) :
    (sortByCountDesc l).filter (fun p => p.2 == c) = l.filter (fun p => p.2 == c) := by
  induction l with
  | nil => rfl
  | cons x xs ih =>
    rw [sortByCountDesc]
    by_cases hx : x.2 = c
    · rw [insert_filter_eq _ _ _ hx, ih, List.filter_cons, if_pos (by simp [hx])]
    · rw [insert_filter_ne _ _ _ hx, ih, List.filter_cons, if_neg (by simp [hx])]

/-- C7: the computed `top_emotions` is the 5-truncation of a list that is
sorted non-increasingly by count, is a permutation of the association of
each distinct emotion (in order of first occurrence across the flattened
emotion lists) with its occurrence count, and whose entries of any fixed
count appear exactly in first-occurrence order (stable tie-breaking). -/
theorem top_emotions_spec (results : List ResultDict) (s : SummaryStats)
    (h : get_summary_stats results = .ok (.stats s)) :
    s.top_emotions.length ≤ 5 ∧
    List.Sorted (fun a b : PyVal × Nat => b.2 ≤ a.2) s.top_emotions ∧
    ∃ A, pyConcatElems (results.map fun r => r.emotions) = .ok A ∧
      (∀ p ∈ s.top_emotions, p.2 = countOcc p.1 A) ∧
      ∃ full, s.top_emotions = full.take 5 ∧
        List.Sorted (fun a b : PyVal × Nat => b.2 ≤ a.2) full ∧
        full.Perm ((firstOccList A).map fun k => (k, countOcc k A)) ∧
        ∀ c : Nat, full.filter (fun p => p.2 == c) =
          ((firstOccList A).map fun k => (k, countOcc k A)).filter (fun p => p.2 == c) := by
  by_cases hne : results.isEmpty = true
  · rw [get_summary_stats, if_pos hne] at h
    cases h
  · rw [get_summary_stats, if_neg hne] at h
    cases hA : pyConcatElems (results.map fun r => r.emotions) with
    | error e => rw [hA] at h; cases h
    | ok A =>
      rw [hA] at h
      cases h
      refine ⟨?_, ?_, A, rfl, ?_, sortByCountDesc (emotionCounts A), rfl,
        sortByCountDesc_sorted _, ?_, ?_⟩
      · show ((sortByCountDesc (emotionCounts A)).take 5).length ≤ 5
        simp [List.length_take]
      · show List.Sorted (fun a b : PyVal × Nat => b.2 ≤ a.2)
          ((sortByCountDesc (emotionCounts A)).take 5)
        exact List.Pairwise.sublist (List.take_sublist _ _) (sortByCountDesc_sorted _)
      · intro p hp
        have hfull : p ∈ sortByCountDesc (emotionCounts A) := List.take_subset _ _ hp
        have hmem : p ∈ emotionCounts A := (sortByCountDesc_perm _).mem_iff.mp hfull
        rw [emotionCounts_char] at hmem
        obtain ⟨k, hk, rfl⟩ := List.mem_map.mp hmem
        rfl
      · refine (sortByCountDesc_perm (emotionCounts A)).trans ?_
        rw [emotionCounts_char]
      · intro c
        rw [sort_filter_stable, emotionCounts_char]

/-- Witness for C7 at a concrete one-element Result list with a single
emotion `"neutral"`. -/
theorem top_emotions_spec_witness :
    ({ total_analyzed := 1, positive_count := 1, negative_count := 0, neutral_count := 0,
       positive_percentage := 100, negative_percentage := 0, neutral_percentage := 0,
       average_confidence := 1/2, average_intensity := 5,
       top_emotions := [(.pyStr "neutral", 1)] } : SummaryStats).top_emotions.length ≤ 5 :=
  (top_emotions_spec
    [{ sentiment := "positive", confidence := 1/2, emotions := .pyList [.pyStr "neutral"],
       key_phrases := .pyList [], intensity := 5, original_text := "t" }]
    { total_analyzed := 1, positive_count := 1, negative_count := 0, neutral_count := 0,
      positive_percentage := 100, negative_percentage := 0, neutral_percentage := 0,
      average_confidence := 1/2, average_intensity := 5,
      top_emotions := [(.pyStr "neutral", 1)] }
    (by with_unfolding_all decide)).1
